import Mathlib

/-!
Verification of the bounded concurrent pipeline in main.go:
async fetch with timeout (select), worker-pool processing, output pipeline,
and mutex-protected statistics.  All definitions are shallow embeddings of
the Go source; the mutex makes each counter operation atomic, so concurrent
histories are modelled as serialized lists of operations, and the pipeline's
concurrency is modelled as a nondeterministic small-step transition system.
-/

/-- Stats (main.go): three counters protected by one mutex.  The mutex makes
each increment and the read in Print atomic, so the state is just the triple. -/
structure Stats where
  totalFetched : Nat
  totalProcessed : Nat
  errors : Nat
  deriving DecidableEq, Repr

/-- Stats.IncrementFetched (main.go): lock, totalFetched++, unlock. -/
def Stats.incrementFetched (s : Stats) : Stats :=
  { s with totalFetched := s.totalFetched + 1 }

/-- Stats.IncrementProcessed (main.go): lock, totalProcessed++, unlock. -/
def Stats.incrementProcessed (s : Stats) : Stats :=
  { s with totalProcessed := s.totalProcessed + 1 }

/-- Stats.IncrementErrors (main.go): lock, errors++, unlock. -/
def Stats.incrementErrors (s : Stats) : Stats :=
  { s with errors := s.errors + 1 }

/-- The triple of counter values read by Stats.Print under a single
critical section. -/
structure StatsSnapshot where
  fetched : Nat
  processed : Nat
  errors : Nat
  deriving DecidableEq, Repr

/-- Stats.Print (main.go): acquires the mutex once, reads all three counters,
releases, and does not write any counter.  State-passing form: the returned
state is the (unchanged) counter state. -/
def Stats.print (s : Stats) : StatsSnapshot × Stats :=
  (⟨s.totalFetched, s.totalProcessed, s.errors⟩, s)

/-- One serialized mutation of the statistics: because every mutation in the
source goes through a mutex-guarded increment, a concurrent history is a
serialization, i.e. a list of these operations. -/
inductive StatsOp where
  | incFetched
  | incProcessed
  | incErrors
  deriving DecidableEq, Repr

/-- Apply one serialized statistics operation. -/
def applyOp (s : Stats) : StatsOp → Stats
  | .incFetched => s.incrementFetched
  | .incProcessed => s.incrementProcessed
  | .incErrors => s.incrementErrors

/-- Apply a serialized history of statistics operations. -/
def applyOps (s : Stats) (l : List StatsOp) : Stats :=
  l.foldl applyOp s

/-- APIResponse (main.go): Source, Data, fetch Time (milliseconds). -/
structure APIResponse where
  Source : String
  Data : String
  Time : Nat
  deriving DecidableEq, Repr

/-- ProcessedData (main.go): ID of the worker, Original and Processed
payloads, and the Source carried over from the APIResponse. -/
structure ProcessedData where
  ID : Nat
  Original : String
  Processed : String
  Source : String
  deriving DecidableEq, Repr

/-- The response built by the goroutine spawned inside fetchWithTimeout. -/
def mkAPIResponse (source : String) (fetchTime : Nat) : APIResponse :=
  { Source := source, Data := "data-from-" ++ source, Time := fetchTime }

/-- The body of the loop in processingWorker (main.go): transform one job
into a ProcessedData.  The transform is total: it cannot fail. -/
def processJob (id : Nat) (job : APIResponse) : ProcessedData :=
  { ID := id, Original := job.Data,
    Processed := "PROCESSED[" ++ job.Data ++ "]", Source := job.Source }

/-- Outcome of one invocation of fetchWithTimeout, as seen by the caller:
the three select arms of the source. -/
inductive FetchOutcome where
  | success (r : APIResponse)
  | timeoutErr (source : String)
  | underlyingErr
  deriving DecidableEq, Repr

def FetchOutcome.isSuccess : FetchOutcome → Bool
  | .success _ => true
  | _ => false

def FetchOutcome.isTimeout : FetchOutcome → Bool
  | .timeoutErr _ => true
  | _ => false

def FetchOutcome.isUnderlying : FetchOutcome → Bool
  | .underlyingErr => true
  | _ => false

/-- The three cases of the select statement in fetchWithTimeout. -/
inductive SelectCase where
  | response
  | underlying
  | timer
  deriving DecidableEq, Repr

/-- Go select semantics over the three arms of fetchWithTimeout, with each
channel described by the arrival time of its (unique) message, or none if the
channel is never written.  The select fires at the earliest arrival; when
several arms become ready at the same instant, Go chooses among the ready
arms (uniformly at random); the choice is the tie parameter when it is among
the ready arms. -/
def select3Min (resp err : Option Nat) (timer : Nat) : Nat :=
  min (min (resp.getD timer) (err.getD timer)) timer

def select3Ready (resp err : Option Nat) (timer : Nat) : List SelectCase :=
  (if resp = some (select3Min resp err timer) then [SelectCase.response] else []) ++
  (if err = some (select3Min resp err timer) then [SelectCase.underlying] else []) ++
  (if timer = select3Min resp err timer then [SelectCase.timer] else [])

def select3 (resp err : Option Nat) (timer : Nat) (tie : SelectCase) : SelectCase :=
  if tie ∈ select3Ready resp err timer then tie
  else (select3Ready resp err timer).headD SelectCase.timer

/-- fetchWithTimeout (main.go).  responseChan (buffer 1) receives exactly one
message, sent by the spawned goroutine after fetchTime; errorChan (buffer 1)
is never written by any goroutine in the source, hence arrival none;
time.After fires at the timeout.  The winning select arm updates the
statistics and is the value returned to the caller; a response arriving after
the timer fired stays in the buffer and is discarded. -/
def fetchWithTimeout (source : String) (fetchTime timeout : Nat) (tie : SelectCase)
    (stats : Stats) : FetchOutcome × Stats :=
  match select3 (some fetchTime) none timeout tie with
  | SelectCase.response =>
      (FetchOutcome.success (mkAPIResponse source fetchTime), stats.incrementFetched)
  | SelectCase.underlying => (FetchOutcome.underlyingErr, stats.incrementErrors)
  | SelectCase.timer => (FetchOutcome.timeoutErr source, stats.incrementErrors)

/-- Configuration of one integrated pipeline run (demonstrateIntegrated,
main.go): the input sources, the worker-pool size, the capacities of the two
stage channels, and the per-fetch timeout in milliseconds. -/
structure Config where
  sources : List String
  workerCount : Nat
  cap1 : Nat
  cap2 : Nat
  timeoutMs : Nat
  deriving DecidableEq, Repr

/-- The configuration hard-coded in demonstrateIntegrated (main.go):
numWorkers = 3, both channels allocated with capacity len(sources), and a
1-second (1000 ms) fetch timeout. -/
def codeCfg (sources : List String) : Config :=
  { sources := sources, workerCount := 3, cap1 := sources.length,
    cap2 := sources.length, timeoutMs := 1000 }

/-- Global state of one pipeline run, covering every goroutine of
demonstrateIntegrated: the fetch fan-out tasks still pending, the two stage
channels (buffer contents plus closed flag), the number of processing workers
that have not yet returned, the results already drained by outputPipeline,
the done signal, and the shared statistics. -/
structure PState where
  pendingFetch : List String
  q1 : List APIResponse
  q1closed : Bool
  workersActive : Nat
  q2 : List ProcessedData
  q2closed : Bool
  outCollected : List ProcessedData
  outDone : Bool
  stats : Stats
  deriving DecidableEq, Repr

/-- Initial state of a run: all sources pending, both channels empty and
open, all workers running, nothing collected, all counters zero. -/
def initState (cfg : Config) : PState :=
  { pendingFetch := cfg.sources, q1 := [], q1closed := false,
    workersActive := cfg.workerCount, q2 := [], q2closed := false,
    outCollected := [], outDone := false, stats := ⟨0, 0, 0⟩ }

/-- One atomic scheduler step of the run.  fetchDone resolves one fan-out
fetch goroutine (its latency and select tie-break are the nondeterminism);
closeQ1 is the goroutine that waits on fetchWg and closes fetchedData;
workerStep lets worker wid consume one job, transform it and publish it
(one atomic step, since both the dequeue and the counter update are atomic
in the source); workerExit lets a worker observe end-of-stream and return;
closeQ2 is the goroutine that waits on processWg and closes processedData;
outputStep and outputDone are outputPipeline draining a result and sending
on done. -/
inductive PipeAction where
  | fetchDone (src : String) (fetchTime : Nat) (tie : SelectCase)
  | closeQ1
  | workerStep (wid : Nat)
  | workerExit
  | closeQ2
  | outputStep
  | outputDone
  deriving DecidableEq, Repr

/-- Semantics of one step: none when the action is not enabled in this state
(the corresponding goroutine is blocked or cannot be scheduled).  A fetch
whose select picks the response arm publishes into q1 when there is room; a
fetch that times out only bumps the errors counter, the item is dropped.
Workers require the job channel to be nonempty; they observe end-of-stream
(and return) only once q1 is both closed and drained, exactly like a range
loop over a Go channel.  The two close actions model the wait-then-close
goroutines: they fire only after every producer of their channel finished. -/
def stepFn (cfg : Config) (s : PState) : PipeAction → Option PState
  | .fetchDone src fetchTime tie =>
    if src ∈ s.pendingFetch then
      match fetchWithTimeout src fetchTime cfg.timeoutMs tie s.stats with
      | (FetchOutcome.success r, stats') =>
        if s.q1closed = false ∧ s.q1.length < cfg.cap1 then
          some { s with pendingFetch := s.pendingFetch.erase src,
                        q1 := s.q1 ++ [r], stats := stats' }
        else none
      | (_, stats') =>
        some { s with pendingFetch := s.pendingFetch.erase src, stats := stats' }
    else none
  | .closeQ1 =>
    if s.pendingFetch = [] ∧ s.q1closed = false then
      some { s with q1closed := true }
    else none
  | .workerStep wid =>
    match s.q1 with
    | [] => none
    | job :: rest =>
      if 1 ≤ wid ∧ wid ≤ cfg.workerCount ∧ 1 ≤ s.workersActive ∧
          s.q2closed = false ∧ s.q2.length < cfg.cap2 then
        some { s with q1 := rest, q2 := s.q2 ++ [processJob wid job],
                      stats := s.stats.incrementProcessed }
      else none
  | .workerExit =>
    if s.q1 = [] ∧ s.q1closed = true ∧ 1 ≤ s.workersActive then
      some { s with workersActive := s.workersActive - 1 }
    else none
  | .closeQ2 =>
    if s.workersActive = 0 ∧ s.q2closed = false then
      some { s with q2closed := true }
    else none
  | .outputStep =>
    match s.q2 with
    | [] => none
    | r :: rest => some { s with q2 := rest, outCollected := s.outCollected ++ [r] }
  | .outputDone =>
    if s.q2 = [] ∧ s.q2closed = true ∧ s.outDone = false then
      some { s with outDone := true }
    else none

/-- Execute a whole schedule (list of actions) from a state. -/
def runList (cfg : Config) : PState → List PipeAction → Option PState
  | s, [] => some s
  | s, a :: rest =>
    match stepFn cfg s a with
    | some s' => runList cfg s' rest
    | none => none

/-- The states a pipeline run can be in under some scheduling. -/
inductive Reachable (cfg : Config) : PState → Prop where
  | init : Reachable cfg (initState cfg)
  | step {s s' : PState} {a : PipeAction} :
      Reachable cfg s → stepFn cfg s a = some s' → Reachable cfg s'

/-- One scheduler step as a relation. -/
def StepRel (cfg : Config) (s s' : PState) : Prop :=
  ∃ a, stepFn cfg s a = some s'

/-- Any number of scheduler steps. -/
def PipeStar (cfg : Config) : PState → PState → Prop :=
  Relation.ReflTransGen (StepRel cfg)

/-- Number of live occurrences of source identifier a in the whole pipeline:
still pending, buffered in fetchedData, buffered in processedData, or already
drained by outputPipeline. -/
def srcCount (s : PState) (a : String) : Nat :=
  s.pendingFetch.count a + (s.q1.map APIResponse.Source).count a +
    (s.q2.map ProcessedData.Source).count a +
    (s.outCollected.map ProcessedData.Source).count a

/-- Inductive invariant of the pipeline run.  count_eq: every resolved fetch
bumped exactly one of fetched/errors; fetched_eq and processed_eq: each
counter matches the items that have moved through its stage; closed_pending:
fetchedData is closed only after all fetch goroutines resolved; workers exit
only after fetchedData is closed and drained (exited_drained);
processedData is closed only after all workers exited (q2closed_workers);
the done signal fires only after processedData is closed and drained
(done_q2); src_count: no source identifier is ever duplicated beyond its
multiplicity in the input. -/
structure PipeInv (cfg : Config) (s : PState) : Prop where
  count_eq : s.stats.totalFetched + s.stats.errors + s.pendingFetch.length
      = cfg.sources.length
  fetched_eq : s.stats.totalFetched = s.stats.totalProcessed + s.q1.length
  processed_eq : s.stats.totalProcessed = s.q2.length + s.outCollected.length
  closed_pending : s.q1closed = true → s.pendingFetch = []
  workers_le : s.workersActive ≤ cfg.workerCount
  exited_drained : s.workersActive < cfg.workerCount → s.q1closed = true ∧ s.q1 = []
  q2closed_workers : s.q2closed = true → s.workersActive = 0
  done_q2 : s.outDone = true → s.q2closed = true ∧ s.q2 = []
  src_count : ∀ a : String, srcCount s a ≤ cfg.sources.count a

/-- Decreasing measure of the run: every enabled step strictly reduces it,
so every schedule terminates. -/
def pipeMeasure (s : PState) : Nat :=
  3 * s.pendingFetch.length + 2 * s.q1.length + s.q2.length + s.workersActive +
    (if s.q1closed then 0 else 1) + (if s.q2closed then 0 else 1) +
    (if s.outDone then 0 else 1)

/-- A Go channel as allocated by make(chan T, capacity) for the stage queues
of demonstrateIntegrated: a bounded FIFO buffer plus a closed flag. -/
structure GoChan (α : Type) where
  buffer : List α
  cap : Nat
  closed : Bool
  deriving DecidableEq, Repr

/-- The error value the specification expects a post-close send to return. -/
inductive ChanError where
  | closedChannel
  deriving DecidableEq, Repr

/-- Result of a send on a Go channel.  delivered: the value entered the
buffer; wouldBlock: the buffer is full and the sender suspends until space
frees up; panicked: run-time panic terminating the program (the Go language
specification: a send on a closed channel proceeds by causing a run-time
panic); errorReturned: a recoverable error value handed back to the sender.
Go send never produces errorReturned; the constructor exists so that the
specified behaviour can be stated and compared against the actual one. -/
inductive SendResult (α : Type) where
  | delivered (c : GoChan α)
  | wouldBlock
  | panicked
  | errorReturned (e : ChanError)
  deriving DecidableEq, Repr

/-- Send on a Go channel, following the Go language semantics that governs
every stage queue in main.go. -/
def GoChan.send {α : Type} (c : GoChan α) (x : α) : SendResult α :=
  if c.closed then SendResult.panicked
  else if c.buffer.length < c.cap then
    SendResult.delivered { c with buffer := c.buffer ++ [x] }
  else SendResult.wouldBlock

/-- A stage queue after its designated closer has closed it. -/
def chanAfterClose : GoChan Nat := { buffer := [], cap := 5, closed := true }

/-- The five sources of demonstrateIntegrated (main.go). -/
def demoSources : List String := ["API-1", "API-2", "API-3", "API-4", "API-5"]

/-- A complete schedule of the integrated demo on one source: the fetch
succeeds, the fetch coordinator closes fetchedData, one worker processes the
item, all three workers observe end-of-stream and exit, the pool coordinator
closes processedData, and outputPipeline drains it and signals done. -/
def demoRun1 : List PipeAction :=
  [.fetchDone "API-1" 100 SelectCase.timer, .closeQ1, .workerStep 1,
   .workerExit, .workerExit, .workerExit, .closeQ2, .outputStep, .outputDone]

/-- The final state of demoRun1. -/
def demoFinal1 : PState :=
  { pendingFetch := [], q1 := [], q1closed := true, workersActive := 0,
    q2 := [], q2closed := true,
    outCollected := [processJob 1 (mkAPIResponse "API-1" 100)], outDone := true,
    stats := ⟨1, 1, 0⟩ }

/-- The integrated-demo configuration with a zero-size worker pool. -/
def zeroCfg (sources : List String) : Config :=
  { sources := sources, workerCount := 0, cap1 := sources.length,
    cap2 := sources.length, timeoutMs := 1000 }

/-- A schedule of the zero-worker run on the demo sources: all five fetches
succeed, both closers run, output observes an empty closed queue and signals
done; no worker ever processes anything. -/
def zeroWorkerRun : List PipeAction :=
  [.fetchDone "API-1" 100 SelectCase.timer, .fetchDone "API-2" 100 SelectCase.timer,
   .fetchDone "API-3" 100 SelectCase.timer, .fetchDone "API-4" 100 SelectCase.timer,
   .fetchDone "API-5" 100 SelectCase.timer, .closeQ1, .closeQ2, .outputDone]

/-- After a serialized history, every counter equals its initial value plus
the number of its increments in the history: the state is always the coherent
image of one prefix of the history (here, the whole history). -/
lemma applyOps_counts (s : Stats) (l : List StatsOp) :
    applyOps s l =
      ⟨s.totalFetched + l.count StatsOp.incFetched,
       s.totalProcessed + l.count StatsOp.incProcessed,
       s.errors + l.count StatsOp.incErrors⟩ := by
  induction l generalizing s with
  | nil => simp [applyOps]
  | cons a t ih =>
    have hstep : applyOps s (a :: t) = applyOps (applyOp s a) t := rfl
    rw [hstep, ih]
    cases a <;>
      simp [applyOp, Stats.incrementFetched, Stats.incrementProcessed,
        Stats.incrementErrors, Stats.mk.injEq, List.count_cons] <;>
      omega

/-- In the select of fetchWithTimeout, when the response arrives strictly
after the timer, the timer arm wins for every tie-break. -/
lemma select3_none_late (ft tmo : Nat) (tie : SelectCase) (h : tmo < ft) :
    select3 (some ft) none tmo tie = SelectCase.timer := by
  have hm : select3Min (some ft) none tmo = tmo := by
    simp [select3Min]; omega
  have hne : ft ≠ tmo := by omega
  have hready : select3Ready (some ft) none tmo = [SelectCase.timer] := by
    simp [select3Ready, hm, hne]
  cases tie <;> simp [select3, hready]

/-- In the select of fetchWithTimeout, when the response arrives strictly
before the timer, the response arm wins for every tie-break. -/
lemma select3_none_early (ft tmo : Nat) (tie : SelectCase) (h : ft < tmo) :
    select3 (some ft) none tmo tie = SelectCase.response := by
  have hm : select3Min (some ft) none tmo = ft := by
    simp [select3Min]; omega
  have hne : tmo ≠ ft := by omega
  have hready : select3Ready (some ft) none tmo = [SelectCase.response] := by
    simp [select3Ready, hm, hne]
  cases tie <;> simp [select3, hready]

/-- In the select of fetchWithTimeout, when response and timer become ready
at the same instant, one of those two arms wins; the (never-written)
error arm never does. -/
lemma select3_none_eq (ft : Nat) (tie : SelectCase) :
    select3 (some ft) none ft tie = SelectCase.response ∨
      select3 (some ft) none ft tie = SelectCase.timer := by
  have hm : select3Min (some ft) none ft = ft := by simp [select3Min]
  have hready : select3Ready (some ft) none ft =
      [SelectCase.response, SelectCase.timer] := by
    simp [select3Ready, hm]
  cases tie <;> simp [select3, hready]

/-- When the work completes strictly after the deadline, the timer arm wins
for every tie-break: the caller gets the timeout error. -/
lemma fetchWithTimeout_late (source : String) (ft tmo : Nat) (tie : SelectCase)
    (st : Stats) (h : tmo < ft) :
    fetchWithTimeout source ft tmo tie st =
      (FetchOutcome.timeoutErr source, st.incrementErrors) := by
  unfold fetchWithTimeout
  rw [select3_none_late ft tmo tie h]

/-- When the work completes strictly before the deadline, the response arm
wins for every tie-break: the caller gets the successful response. -/
lemma fetchWithTimeout_early (source : String) (ft tmo : Nat) (tie : SelectCase)
    (st : Stats) (h : ft < tmo) :
    fetchWithTimeout source ft tmo tie st =
      (FetchOutcome.success (mkAPIResponse source ft), st.incrementFetched) := by
  unfold fetchWithTimeout
  rw [select3_none_early ft tmo tie h]

/-- Every invocation returns either the success outcome (with the fetched
counter bumped) or the timeout error (with the errors counter bumped):
the underlying-error arm never fires because errorChan is never written. -/
lemma fetchWithTimeout_total (source : String) (ft tmo : Nat) (tie : SelectCase)
    (st : Stats) :
    fetchWithTimeout source ft tmo tie st =
        (FetchOutcome.success (mkAPIResponse source ft), st.incrementFetched) ∨
      fetchWithTimeout source ft tmo tie st =
        (FetchOutcome.timeoutErr source, st.incrementErrors) := by
  rcases Nat.lt_trichotomy ft tmo with h | h | h
  · exact .inl (fetchWithTimeout_early source ft tmo tie st h)
  · subst h
    unfold fetchWithTimeout
    rcases select3_none_eq ft tie with hsel | hsel <;> rw [hsel]
    · exact .inl rfl
    · exact .inr rfl
  · exact .inr (fetchWithTimeout_late source ft tmo tie st h)

lemma runList_reachable {cfg : Config} :
    ∀ {l : List PipeAction} {s s' : PState},
      Reachable cfg s → runList cfg s l = some s' → Reachable cfg s' := by
  intro l
  induction l with
  | nil => intro s s' hr h; simp [runList] at h; exact h ▸ hr
  | cons a t ih =>
    intro s s' hr h
    simp only [runList] at h
    rcases hstep : stepFn cfg s a with _ | s1
    · rw [hstep] at h; exact absurd h (by simp)
    · rw [hstep] at h
      exact ih (Reachable.step hr hstep) h

/-- A state produced by executing an explicit schedule from the initial
state is reachable. -/
lemma reachable_of_runList {cfg : Config} (l : List PipeAction) {s : PState}
    (h : runList cfg (initState cfg) l = some s) : Reachable cfg s :=
  runList_reachable Reachable.init h

lemma inv_init (cfg : Config) : PipeInv cfg (initState cfg) := by
  constructor <;> simp [initState, srcCount]

/-- What a successful fetchDone step can be: the source was pending, and the
step either published a response into q1 (select picked the response arm) or
only recorded the timeout (select picked the timer arm). -/
lemma stepFn_fetchDone_cases {cfg : Config} {s s' : PState} {src : String}
    {ft : Nat} {tie : SelectCase}
    (h : stepFn cfg s (.fetchDone src ft tie) = some s') :
    src ∈ s.pendingFetch ∧
      ((s.q1closed = false ∧ s.q1.length < cfg.cap1 ∧
          s' = { s with pendingFetch := s.pendingFetch.erase src,
                        q1 := s.q1 ++ [mkAPIResponse src ft],
                        stats := s.stats.incrementFetched }) ∨
        s' = { s with pendingFetch := s.pendingFetch.erase src,
                      stats := s.stats.incrementErrors }) := by
  simp only [stepFn] at h
  split at h
  case isFalse => exact absurd h (by simp)
  case isTrue hmem =>
    refine ⟨hmem, ?_⟩
    rcases fetchWithTimeout_total src ft cfg.timeoutMs tie s.stats with htot | htot <;>
      rw [htot] at h <;> dsimp only at h
    · left
      split at h
      case isTrue hc =>
        simp only [Option.some.injEq] at h
        exact ⟨hc.1, hc.2, h.symm⟩
      case isFalse => exact absurd h (by simp)
    · right
      simp only [Option.some.injEq] at h
      exact h.symm

lemma count_erase_le (l : List String) (src b : String) :
    (l.erase src).count b ≤ l.count b := by
  rcases eq_or_ne b src with rfl | hne
  · rw [List.count_erase_self]; omega
  · rw [List.count_erase_of_ne hne]

lemma count_erase_add_one {l : List String} {src : String} (h : src ∈ l) :
    (l.erase src).count src + 1 = l.count src := by
  rw [List.count_erase_self]
  have := List.count_pos_iff.mpr h
  omega

/-- Every scheduler step preserves the pipeline invariant. -/
lemma inv_preserved {cfg : Config} {s s' : PState} {a : PipeAction}
    (hinv : PipeInv cfg s) (h : stepFn cfg s a = some s') : PipeInv cfg s' := by
  obtain ⟨c1, c2, c3, c4, c5, c6, c7, c8, c9⟩ := hinv
  cases a with
  | fetchDone src ft tie =>
    obtain ⟨hmem, hcase⟩ := stepFn_fetchDone_cases h
    have hlen : 1 ≤ s.pendingFetch.length :=
      List.length_pos.mpr (List.ne_nil_of_mem hmem)
    have herase : (s.pendingFetch.erase src).length = s.pendingFetch.length - 1 :=
      List.length_erase_of_mem hmem
    rcases hcase with ⟨hq1c, hq1len, rfl⟩ | rfl
    · constructor
      · simp only [Stats.incrementFetched]
        simp only [herase]
        omega
      · simp only [Stats.incrementFetched, List.length_append, List.length_cons,
          List.length_nil]
        omega
      · exact c3
      · intro hcl
        rw [hq1c] at hcl
        simp at hcl
      · exact c5
      · intro hlt
        obtain ⟨hcl, _⟩ := c6 hlt
        rw [hq1c] at hcl
        simp at hcl
      · exact c7
      · exact c8
      · intro b
        have hc9 := c9 b
        simp only [srcCount, List.map_append, List.count_append, List.map_cons,
          List.map_nil, mkAPIResponse] at hc9 ⊢
        rcases eq_or_ne b src with hbs | hne
        · subst hbs
          have he := count_erase_add_one hmem
          have hone : List.count b [b] = 1 := by simp
          rw [hone]
          omega
        · have he := List.count_erase_of_ne hne s.pendingFetch
          have hz : List.count b [src] = 0 := by
            simp [List.count_cons, hne.symm]
          rw [hz, he]
          omega
    · constructor
      · simp only [Stats.incrementErrors]
        simp only [herase]
        omega
      · exact c2
      · exact c3
      · intro hcl
        have hp := c4 hcl
        rw [hp] at hmem
        simp at hmem
      · exact c5
      · exact c6
      · exact c7
      · exact c8
      · intro b
        have hc9 := c9 b
        have he := count_erase_le s.pendingFetch src b
        simp only [srcCount] at hc9 ⊢
        omega
  | closeQ1 =>
    simp only [stepFn] at h
    split at h
    case isFalse => simp at h
    case isTrue hc =>
      obtain ⟨hp, hcl⟩ := hc
      simp only [Option.some.injEq] at h
      subst h
      constructor
      · exact c1
      · exact c2
      · exact c3
      · intro _; exact hp
      · exact c5
      · intro hlt
        obtain ⟨h1, h2⟩ := c6 hlt
        rw [hcl] at h1
        simp at h1
      · exact c7
      · exact c8
      · exact c9
  | workerStep wid =>
    simp only [stepFn] at h
    rcases hq1 : s.q1 with _ | ⟨job, rest⟩ <;> rw [hq1] at h <;> dsimp only at h
    · simp at h
    · split at h
      case isFalse => simp at h
      case isTrue hc =>
        obtain ⟨hw1, hw2, hw3, hq2c, hq2len⟩ := hc
        simp only [Option.some.injEq] at h
        subst h
        have hq1len : s.q1.length = rest.length + 1 := by rw [hq1]; simp
        constructor
        · simp only [Stats.incrementProcessed]
          omega
        · simp only [Stats.incrementProcessed]
          omega
        · simp only [Stats.incrementProcessed, List.length_append, List.length_cons,
            List.length_nil]
          omega
        · exact c4
        · exact c5
        · intro hlt
          obtain ⟨_, hq⟩ := c6 hlt
          rw [hq1] at hq
          simp at hq
        · intro h2
          rw [hq2c] at h2
          simp at h2
        · intro hd
          obtain ⟨h1, _⟩ := c8 hd
          rw [hq2c] at h1
          simp at h1
        · intro b
          have hc9 := c9 b
          simp only [srcCount, hq1, List.map_append, List.count_append, List.map_cons,
            List.map_nil, processJob] at hc9 ⊢
          rcases eq_or_ne b job.Source with hbs | hne
          · subst hbs
            have hcons : List.count job.Source (job.Source :: List.map APIResponse.Source rest)
                = List.count job.Source (List.map APIResponse.Source rest) + 1 := by
              simp [List.count_cons]
            have hone : List.count job.Source [job.Source] = 1 := by simp
            rw [hcons] at hc9
            rw [hone]
            omega
          · have hcons : List.count b (job.Source :: List.map APIResponse.Source rest)
                = List.count b (List.map APIResponse.Source rest) := by
              simp [List.count_cons, hne.symm]
            have hz : List.count b [job.Source] = 0 := by
              simp [List.count_cons, hne.symm]
            rw [hcons] at hc9
            rw [hz]
            omega
  | workerExit =>
    simp only [stepFn] at h
    split at h
    case isFalse => simp at h
    case isTrue hc =>
      obtain ⟨hq1e, hq1c, hwa⟩ := hc
      simp only [Option.some.injEq] at h
      subst h
      constructor
      · exact c1
      · exact c2
      · exact c3
      · exact c4
      · simp only []
        omega
      · intro _; exact ⟨hq1c, hq1e⟩
      · intro h2
        have := c7 h2
        omega
      · exact c8
      · exact c9
  | closeQ2 =>
    simp only [stepFn] at h
    split at h
    case isFalse => simp at h
    case isTrue hc =>
      obtain ⟨hw0, hcl⟩ := hc
      simp only [Option.some.injEq] at h
      subst h
      constructor
      · exact c1
      · exact c2
      · exact c3
      · exact c4
      · exact c5
      · exact c6
      · intro _; exact hw0
      · intro hd
        obtain ⟨h1, _⟩ := c8 hd
        rw [hcl] at h1
        simp at h1
      · exact c9
  | outputStep =>
    simp only [stepFn] at h
    rcases hq2 : s.q2 with _ | ⟨r, rest⟩ <;> rw [hq2] at h <;> dsimp only at h
    · simp at h
    · simp only [Option.some.injEq] at h
      subst h
      have hq2len : s.q2.length = rest.length + 1 := by rw [hq2]; simp
      constructor
      · exact c1
      · exact c2
      · simp only [List.length_append, List.length_cons, List.length_nil]
        omega
      · exact c4
      · exact c5
      · exact c6
      · exact c7
      · intro hd
        obtain ⟨_, hq⟩ := c8 hd
        rw [hq2] at hq
        simp at hq
      · intro b
        have hc9 := c9 b
        simp only [srcCount, hq2, List.map_append, List.count_append, List.map_cons,
          List.map_nil, List.count_cons, List.count_nil] at hc9 ⊢
        omega
  | outputDone =>
    simp only [stepFn] at h
    split at h
    case isFalse => simp at h
    case isTrue hc =>
      obtain ⟨hq2, hcl, hnd⟩ := hc
      simp only [Option.some.injEq] at h
      subst h
      constructor
      · exact c1
      · exact c2
      · exact c3
      · exact c4
      · exact c5
      · exact c6
      · exact c7
      · intro _; exact ⟨hcl, hq2⟩
      · exact c9

/-- Every reachable state satisfies the pipeline invariant. -/
lemma inv_reachable {cfg : Config} {s : PState} (h : Reachable cfg s) :
    PipeInv cfg s := by
  induction h with
  | init => exact inv_init cfg
  | step _ hstep ih => exact inv_preserved ih hstep

/-- No reachable state that has not yet received the done signal is stuck:
some goroutine of the run can always take a step (deadlock-freedom), as long
as processedData has capacity at least 1.  In particular a pending fetch can
always resolve through the timer arm, so the conclusion does not depend on
fetch latencies: it formalizes a run in which every fetch completes or times
out. -/
lemma progress {cfg : Config} {s : PState} (hinv : PipeInv cfg s)
    (hcap2 : 1 ≤ cfg.cap2) (hnd : s.outDone = false) :
    ∃ a s', stepFn cfg s a = some s' := by
  obtain ⟨c1, c2, c3, c4, c5, c6, c7, c8, c9⟩ := hinv
  rcases hp : s.pendingFetch with _ | ⟨src, rest⟩
  · cases hq1c : s.q1closed
    · refine ⟨.closeQ1, { s with q1closed := true }, ?_⟩
      simp only [stepFn]
      rw [if_pos ⟨hp, hq1c⟩]
    · rcases hq2 : s.q2 with _ | ⟨r, rest2⟩
      · cases hwa : s.workersActive with
        | zero =>
          cases hq2c : s.q2closed
          · refine ⟨.closeQ2, { s with q2closed := true }, ?_⟩
            simp only [stepFn]
            rw [if_pos ⟨hwa, hq2c⟩]
          · refine ⟨.outputDone, { s with outDone := true }, ?_⟩
            simp only [stepFn]
            rw [if_pos ⟨hq2, hq2c, hnd⟩]
        | succ n =>
          rcases hq1 : s.q1 with _ | ⟨job, rest1⟩
          · refine ⟨.workerExit, { s with workersActive := s.workersActive - 1 }, ?_⟩
            simp only [stepFn]
            rw [if_pos ⟨hq1, hq1c, by omega⟩]
          · have hwc : 1 ≤ cfg.workerCount := by
              have := c5
              omega
            have hq2c : s.q2closed = false := by
              cases hb : s.q2closed
              · rfl
              · have := c7 hb
                omega
            refine ⟨.workerStep 1,
              { s with q1 := rest1, q2 := s.q2 ++ [processJob 1 job],
                       stats := s.stats.incrementProcessed }, ?_⟩
            simp only [stepFn]
            rw [hq1]
            dsimp only
            rw [if_pos ⟨le_refl 1, hwc, by omega, hq2c, by rw [hq2]; simpa using hcap2⟩]
      · refine ⟨.outputStep,
          { s with q2 := rest2, outCollected := s.outCollected ++ [r] }, ?_⟩
        simp only [stepFn]
        rw [hq2]
  · refine ⟨.fetchDone src (cfg.timeoutMs + 1) SelectCase.timer,
      { s with pendingFetch := s.pendingFetch.erase src,
               stats := s.stats.incrementErrors }, ?_⟩
    have hmem : src ∈ s.pendingFetch := by
      rw [hp]
      exact List.mem_cons_self src rest
    simp only [stepFn]
    rw [if_pos hmem, fetchWithTimeout_late src (cfg.timeoutMs + 1) cfg.timeoutMs
      SelectCase.timer s.stats (by omega)]

lemma step_measure {cfg : Config} {s s' : PState} {a : PipeAction}
    (h : stepFn cfg s a = some s') : pipeMeasure s' < pipeMeasure s := by
  cases a with
  | fetchDone src ft tie =>
    obtain ⟨hmem, hcase⟩ := stepFn_fetchDone_cases h
    have hlen : 1 ≤ s.pendingFetch.length :=
      List.length_pos.mpr (List.ne_nil_of_mem hmem)
    have herase : (s.pendingFetch.erase src).length = s.pendingFetch.length - 1 :=
      List.length_erase_of_mem hmem
    rcases hcase with ⟨_, _, rfl⟩ | rfl <;>
      simp only [pipeMeasure, List.length_append, List.length_cons, List.length_nil,
        herase] <;> omega
  | closeQ1 =>
    simp only [stepFn] at h
    split at h
    case isFalse => simp at h
    case isTrue hc =>
      simp only [Option.some.injEq] at h
      subst h
      simp [pipeMeasure, hc.2]
  | workerStep wid =>
    simp only [stepFn] at h
    rcases hq1 : s.q1 with _ | ⟨job, rest⟩ <;> rw [hq1] at h <;> dsimp only at h
    · simp at h
    · split at h
      case isFalse => simp at h
      case isTrue hc =>
        simp only [Option.some.injEq] at h
        subst h
        simp only [pipeMeasure, hq1, List.length_append, List.length_cons,
          List.length_nil]
        omega
  | workerExit =>
    simp only [stepFn] at h
    split at h
    case isFalse => simp at h
    case isTrue hc =>
      simp only [Option.some.injEq] at h
      subst h
      simp only [pipeMeasure]
      omega
  | closeQ2 =>
    simp only [stepFn] at h
    split at h
    case isFalse => simp at h
    case isTrue hc =>
      simp only [Option.some.injEq] at h
      subst h
      simp [pipeMeasure, hc.2]
  | outputStep =>
    simp only [stepFn] at h
    rcases hq2 : s.q2 with _ | ⟨r, rest⟩ <;> rw [hq2] at h <;> dsimp only at h
    · simp at h
    · simp only [Option.some.injEq] at h
      subst h
      simp only [pipeMeasure, hq2, List.length_append, List.length_cons,
        List.length_nil]
      omega
  | outputDone =>
    simp only [stepFn] at h
    split at h
    case isFalse => simp at h
    case isTrue hc =>
      simp only [Option.some.injEq] at h
      subst h
      simp [pipeMeasure, hc.2.2]

/-- From every state satisfying the invariant, some schedule drives the run
to completion: the done signal is eventually received, in at most
pipeMeasure-many steps. -/
lemma reaches_done {cfg : Config} (hcap2 : 1 ≤ cfg.cap2) (s : PState)
    (hinv : PipeInv cfg s) :
    ∃ s', PipeStar cfg s s' ∧ s'.outDone = true := by
  by_cases hd : s.outDone = true
  · exact ⟨s, Relation.ReflTransGen.refl, hd⟩
  · have hnd : s.outDone = false := by
      cases hb : s.outDone
      · rfl
      · exact absurd hb hd
    obtain ⟨a, s', hstep⟩ := progress hinv hcap2 hnd
    have hinv' := inv_preserved hinv hstep
    have hm := step_measure hstep
    obtain ⟨t, ht, htd⟩ := reaches_done hcap2 s' hinv'
    exact ⟨t, Relation.ReflTransGen.head ⟨a, hstep⟩ ht, htd⟩
termination_by pipeMeasure s
decreasing_by exact hm

/-- When the pool is constructed with zero workers, no processingWorker runs:
nothing is ever processed, in any reachable state. -/
lemma zero_workers_no_processing {cfg : Config} (hwc : cfg.workerCount = 0)
    {s : PState} (h : Reachable cfg s) : s.stats.totalProcessed = 0 := by
  induction h with
  | init => rfl
  | @step s0 s' a hr hstep ih =>
    cases a with
    | fetchDone src ft tie =>
      obtain ⟨_, hcase⟩ := stepFn_fetchDone_cases hstep
      rcases hcase with ⟨_, _, rfl⟩ | rfl <;> exact ih
    | workerStep wid =>
      exfalso
      simp only [stepFn] at hstep
      rcases hq1 : s0.q1 with _ | ⟨job, rest⟩ <;> rw [hq1] at hstep <;>
        dsimp only at hstep
      · simp at hstep
      · split at hstep
        case isTrue hc => omega
        case isFalse => simp at hstep
    | closeQ1 =>
      simp only [stepFn] at hstep
      split at hstep
      case isFalse => simp at hstep
      case isTrue hc =>
        simp only [Option.some.injEq] at hstep
        subst hstep
        exact ih
    | workerExit =>
      simp only [stepFn] at hstep
      split at hstep
      case isFalse => simp at hstep
      case isTrue hc =>
        simp only [Option.some.injEq] at hstep
        subst hstep
        exact ih
    | closeQ2 =>
      simp only [stepFn] at hstep
      split at hstep
      case isFalse => simp at hstep
      case isTrue hc =>
        simp only [Option.some.injEq] at hstep
        subst hstep
        exact ih
    | outputStep =>
      simp only [stepFn] at hstep
      rcases hq2 : s0.q2 with _ | ⟨r, rest⟩ <;> rw [hq2] at hstep <;>
        dsimp only at hstep
      · simp at hstep
      · simp only [Option.some.injEq] at hstep
        subst hstep
        exact ih
    | outputDone =>
      simp only [stepFn] at hstep
      split at hstep
      case isFalse => simp at hstep
      case isTrue hc =>
        simp only [Option.some.injEq] at hstep
        subst hstep
        exact ih

/-- Claim C1: for every pipeline run over an input set of N sources, once
the run completes, the statistics satisfy fetched + errors == N: each
invocation of the fetch stage increments exactly one of the two counters (a
fact proved in fetchWithTimeout_total), and every source is fetched exactly
once. -/
theorem C1_fetched_plus_errors_eq_inputs (sources : List String) (s : PState)
    (h : Reachable (codeCfg sources) s) (hdone : s.outDone = true) :
    s.stats.totalFetched + s.stats.errors = sources.length := by
  have inv := inv_reachable h
  have h1 := inv.done_q2 hdone
  have h2 := inv.q2closed_workers h1.1
  have h3 : s.workersActive < (codeCfg sources).workerCount := by
    rw [h2]; simp [codeCfg]
  have h4 := inv.exited_drained h3
  have h5 := inv.closed_pending h4.1
  have h6 := inv.count_eq
  rw [h5] at h6
  simpa [codeCfg] using h6

theorem C1_witness :
    demoFinal1.stats.totalFetched + demoFinal1.stats.errors =
      (["API-1"] : List String).length :=
  C1_fetched_plus_errors_eq_inputs ["API-1"] demoFinal1
    (reachable_of_runList demoRun1 (by decide)) (by decide)

/-- Claim C2: every invocation of fetchWithTimeout reports exactly one of
the three outcomes (success / timeout error / underlying error) — never more
than one and never none — and exactly one counter is bumped accordingly; if
the underlying work completes only after the deadline fired, the result is
discarded: the caller gets the timeout error, not the late response. -/
theorem C2_exactly_one_outcome (source : String) (ft tmo : Nat) (tie : SelectCase)
    (st : Stats) :
    ((fetchWithTimeout source ft tmo tie st).1.isSuccess.toNat +
        (fetchWithTimeout source ft tmo tie st).1.isTimeout.toNat +
        (fetchWithTimeout source ft tmo tie st).1.isUnderlying.toNat = 1) ∧
      ((fetchWithTimeout source ft tmo tie st).1.isSuccess = true →
        (fetchWithTimeout source ft tmo tie st).2 = st.incrementFetched) ∧
      ((fetchWithTimeout source ft tmo tie st).1.isSuccess = false →
        (fetchWithTimeout source ft tmo tie st).2 = st.incrementErrors) ∧
      (tmo < ft →
        (fetchWithTimeout source ft tmo tie st).1 = FetchOutcome.timeoutErr source) := by
  rcases fetchWithTimeout_total source ft tmo tie st with htot | htot
  · refine ⟨?_, ?_, ?_, ?_⟩
    · rw [htot]; rfl
    · intro _; rw [htot]
    · intro hfalse
      rw [htot] at hfalse
      simp [FetchOutcome.isSuccess] at hfalse
    · intro hlt
      have hl := fetchWithTimeout_late source ft tmo tie st hlt
      rw [htot] at hl
      simp at hl
  · refine ⟨?_, ?_, ?_, ?_⟩
    · rw [htot]; rfl
    · intro htrue
      rw [htot] at htrue
      simp [FetchOutcome.isSuccess] at htrue
    · intro _; rw [htot]
    · intro _; rw [htot]

theorem C2_witness :
    ((fetchWithTimeout "API-1" 1200 1000 SelectCase.timer ⟨0, 0, 0⟩).1.isSuccess.toNat +
        (fetchWithTimeout "API-1" 1200 1000 SelectCase.timer ⟨0, 0, 0⟩).1.isTimeout.toNat +
        (fetchWithTimeout "API-1" 1200 1000 SelectCase.timer ⟨0, 0, 0⟩).1.isUnderlying.toNat
          = 1) ∧
      ((fetchWithTimeout "API-1" 1200 1000 SelectCase.timer ⟨0, 0, 0⟩).1.isSuccess = true →
        (fetchWithTimeout "API-1" 1200 1000 SelectCase.timer ⟨0, 0, 0⟩).2 =
          Stats.incrementFetched ⟨0, 0, 0⟩) ∧
      ((fetchWithTimeout "API-1" 1200 1000 SelectCase.timer ⟨0, 0, 0⟩).1.isSuccess = false →
        (fetchWithTimeout "API-1" 1200 1000 SelectCase.timer ⟨0, 0, 0⟩).2 =
          Stats.incrementErrors ⟨0, 0, 0⟩) ∧
      (1000 < 1200 →
        (fetchWithTimeout "API-1" 1200 1000 SelectCase.timer ⟨0, 0, 0⟩).1 =
          FetchOutcome.timeoutErr "API-1") :=
  C2_exactly_one_outcome "API-1" 1200 1000 SelectCase.timer ⟨0, 0, 0⟩

/-- Claim C3: in every reachable state of a pipeline run, processed is at
most fetched; and at run completion processed equals fetched (the code's
worker transform cannot fail, so the no-transform-failure condition of the
claim always holds). -/
theorem C3_processed_le_fetched (sources : List String) (s : PState)
    (h : Reachable (codeCfg sources) s) :
    s.stats.totalProcessed ≤ s.stats.totalFetched ∧
      (s.outDone = true → s.stats.totalProcessed = s.stats.totalFetched) := by
  have inv := inv_reachable h
  constructor
  · have := inv.fetched_eq
    omega
  · intro hdone
    have h1 := inv.done_q2 hdone
    have h2 := inv.q2closed_workers h1.1
    have h3 : s.workersActive < (codeCfg sources).workerCount := by
      rw [h2]; simp [codeCfg]
    have h4 := inv.exited_drained h3
    have h5 := inv.fetched_eq
    rw [h4.2] at h5
    simpa using h5.symm

theorem C3_witness :
    demoFinal1.stats.totalProcessed ≤ demoFinal1.stats.totalFetched ∧
      (demoFinal1.outDone = true →
        demoFinal1.stats.totalProcessed = demoFinal1.stats.totalFetched) :=
  C3_processed_le_fetched ["API-1"] demoFinal1
    (reachable_of_runList demoRun1 (by decide))

/-- Claim C4: for every run with workerCount at least 1 and stage-queue
capacities at least 1, in which every fetch either completes or times out:
a consumer of fetchedData can observe it closed only after every fetch task
resolved, a consumer of processedData can observe it closed only after every
worker exited, and from every reachable state some schedule reaches the done
state (the output stage is never left blocked by a missed close). -/
theorem C4_ordered_completion_and_done (cfg : Config) (s : PState)
    (hwc : 1 ≤ cfg.workerCount) (hcap1 : 1 ≤ cfg.cap1) (hcap2 : 1 ≤ cfg.cap2)
    (h : Reachable cfg s) :
    (s.q1closed = true → s.pendingFetch = []) ∧
      (s.q2closed = true → s.workersActive = 0) ∧
      ∃ s', PipeStar cfg s s' ∧ s'.outDone = true := by
  have inv := inv_reachable h
  exact ⟨inv.closed_pending, inv.q2closed_workers, reaches_done hcap2 s inv⟩

theorem C4_witness :
    ((initState (codeCfg ["API-1"])).q1closed = true →
        (initState (codeCfg ["API-1"])).pendingFetch = []) ∧
      ((initState (codeCfg ["API-1"])).q2closed = true →
        (initState (codeCfg ["API-1"])).workersActive = 0) ∧
      ∃ s', PipeStar (codeCfg ["API-1"]) (initState (codeCfg ["API-1"])) s' ∧
        s'.outDone = true :=
  C4_ordered_completion_and_done (codeCfg ["API-1"]) (initState (codeCfg ["API-1"]))
    (by decide) (by decide) (by decide) Reachable.init

/-- Claim C5: Stats.Print reads all three counters inside one critical
section, so the snapshot is always the coherent image of the serialized
history (each component equals its initial value plus the number of its
increments in the same history); the read modifies nothing, and repeating it
without intervening increments returns an identical triple. -/
theorem C5_snapshot_coherent_and_idempotent (s0 : Stats) (l : List StatsOp) :
    (Stats.print (applyOps s0 l)).1 =
        ⟨s0.totalFetched + l.count StatsOp.incFetched,
         s0.totalProcessed + l.count StatsOp.incProcessed,
         s0.errors + l.count StatsOp.incErrors⟩ ∧
      (Stats.print (applyOps s0 l)).2 = applyOps s0 l ∧
      (Stats.print ((Stats.print (applyOps s0 l)).2)).1 =
        (Stats.print (applyOps s0 l)).1 := by
  refine ⟨?_, rfl, rfl⟩
  rw [applyOps_counts]
  rfl

/-- Claim C6: every item published to fetchedData is consumed by exactly one
worker, so when the input sources are pairwise distinct, no two processed
results (still buffered or already drained) share a source identifier. -/
theorem C6_at_most_one_result_per_item (sources : List String) (s : PState)
    (h : Reachable (codeCfg sources) s) (hnd : sources.Nodup) :
    ((s.q2 ++ s.outCollected).map ProcessedData.Source).Nodup := by
  have inv := inv_reachable h
  rw [List.nodup_iff_count_le_one]
  intro b
  have h1 := inv.src_count b
  have h2 : sources.count b ≤ 1 := List.nodup_iff_count_le_one.mp hnd b
  simp only [srcCount, codeCfg] at h1
  simp only [List.map_append, List.count_append]
  omega

theorem C6_witness :
    ((demoFinal1.q2 ++ demoFinal1.outCollected).map ProcessedData.Source).Nodup :=
  C6_at_most_one_result_per_item ["API-1"] demoFinal1
    (reachable_of_runList demoRun1 (by decide)) (by decide)

/-- Claim C7 counterexample: sending on a stage queue after its closer has
closed it does not return a ClosedChannelError error value to the sender;
per the Go language semantics it causes a run-time panic. -/
theorem C7_counterexample :
    GoChan.send chanAfterClose 7 = SendResult.panicked ∧
      GoChan.send chanAfterClose 7 ≠
        SendResult.errorReturned ChanError.closedChannel := by
  decide

/-- Claim C7 amended: calling send on a stage queue after its designated
closer has closed it causes a run-time panic (an uncontrolled crash of the
program), not an error value reported to the sender, for every queue and
every item sent after close. -/
theorem C7_amended_post_close_send_panics {α : Type} (c : GoChan α) (x : α)
    (h : c.closed = true) : GoChan.send c x = SendResult.panicked := by
  simp [GoChan.send, h]

theorem C7_amended_witness : GoChan.send chanAfterClose 7 = SendResult.panicked :=
  C7_amended_post_close_send_panics chanAfterClose 7 rfl

/-- Claim C8 counterexample: with workerCount = 0 the code does not fail
with an invalid-configuration error: the zero-worker run completes (done is
signaled) with five fetched items, zero processed and zero errors — no
validation exists anywhere in the code. -/
theorem C8_counterexample :
    (runList (zeroCfg demoSources) (initState (zeroCfg demoSources))
        zeroWorkerRun).map
      (fun s => (s.outDone, s.stats.totalFetched, s.stats.totalProcessed,
        s.stats.errors)) = some (true, 5, 0, 0) := by
  decide

/-- Claim C8 amended: the code never validates workerCount.  Run with
workerCount = 0, the pipeline neither fails with a configuration error nor
hangs: nothing is ever processed, and some schedule still drives the run to
the done state (fetched items are silently discarded in fetchedData). -/
theorem C8_amended_zero_workers_completes_unvalidated (sources : List String)
    (s : PState) (h : Reachable (zeroCfg sources) s) (hcap : 1 ≤ sources.length) :
    s.stats.totalProcessed = 0 ∧
      ∃ s', PipeStar (zeroCfg sources) s s' ∧ s'.outDone = true :=
  ⟨zero_workers_no_processing rfl h,
    reaches_done (by simpa [zeroCfg] using hcap) s (inv_reachable h)⟩

theorem C8_amended_witness :
    (initState (zeroCfg demoSources)).stats.totalProcessed = 0 ∧
      ∃ s', PipeStar (zeroCfg demoSources) (initState (zeroCfg demoSources)) s' ∧
        s'.outDone = true :=
  C8_amended_zero_workers_completes_unvalidated demoSources
    (initState (zeroCfg demoSources)) Reachable.init (by decide)

/-- Claim C10: the underlying-error outcome of fetchWithTimeout is
unreachable — errorChan is never written, so the select can never return the
underlying error, and every invocation that does not time out returns the
successful response. -/
theorem C10_underlying_error_unreachable (source : String) (ft tmo : Nat)
    (tie : SelectCase) (st : Stats) :
    (fetchWithTimeout source ft tmo tie st).1 ≠ FetchOutcome.underlyingErr ∧
      ((fetchWithTimeout source ft tmo tie st).1.isTimeout = false →
        (fetchWithTimeout source ft tmo tie st).1 =
          FetchOutcome.success (mkAPIResponse source ft)) := by
  rcases fetchWithTimeout_total source ft tmo tie st with htot | htot <;> rw [htot]
  · exact ⟨by simp, fun _ => rfl⟩
  · refine ⟨by simp, ?_⟩
    intro hft
    simp [FetchOutcome.isTimeout] at hft

theorem C10_witness :
    (fetchWithTimeout "API-1" 100 1000 SelectCase.response ⟨0, 0, 0⟩).1 ≠
        FetchOutcome.underlyingErr ∧
      ((fetchWithTimeout "API-1" 100 1000 SelectCase.response ⟨0, 0, 0⟩).1.isTimeout
          = false →
        (fetchWithTimeout "API-1" 100 1000 SelectCase.response ⟨0, 0, 0⟩).1 =
          FetchOutcome.success (mkAPIResponse "API-1" 100)) :=
  C10_underlying_error_unreachable "API-1" 100 1000 SelectCase.response ⟨0, 0, 0⟩
